import Mathlib

/-! terraform-provider-jira: group membership and user resources

A shallow embedding of `jira/resource_group_membership.go` and
`jira/resource_user.go`.

* Go strings are modelled as Lean `String`s (sequences of Unicode characters;
  a Go string holding valid UTF-8 is exactly such a sequence).
* The Go standard-library functions the provider calls (`strings.ReplaceAll`,
  `strings.SplitN`, `fmt.Sprintf` with `%s`) are modelled on character lists.
* The remote Jira instance is a `Client`: a record of response functions, each
  of which may depend on the whole history of calls answered so far, so that
  every deterministic remote behaviour (including a remote whose answers change
  after a mutation, or whose endpoints disagree) is an instance.
* Every provider operation threads the `ResourceData` it mutates and the log
  of remote calls it has issued.
-/

set_option autoImplicit false

namespace Jira

/-! ## Go standard library: `strings` -/

namespace Strings

/-- Go `strings.Index(s, sep)`: position of the first occurrence of `sep` in
`s`, or `none` (Go returns `-1`). -/
def index (sep : List Char) : List Char → Option Nat
  | [] => if sep = [] then some 0 else none
  | c :: cs =>
    if sep.isPrefixOf (c :: cs) then some 0
    else (index sep cs).map (· + 1)

/-- Scanning loop of `strings.Replace` for a non-empty `old`: `skip` counts the
characters of a match that are still to be dropped. -/
def replaceLoop (old new : List Char) : Nat → List Char → List Char
  | _, [] => []
  | skip + 1, _ :: cs => replaceLoop old new skip cs
  | 0, c :: cs =>
    if old.isPrefixOf (c :: cs) then new ++ replaceLoop old new (old.length - 1) cs
    else c :: replaceLoop old new 0 cs

/-- Go `strings.ReplaceAll(s, old, new)` on character lists: every
non-overlapping occurrence of `old`, scanning left to right, becomes `new`; an
empty `old` matches before every character and at the end. -/
def replaceAll (s old new : List Char) : List Char :=
  if old = [] then new ++ s.flatMap (fun c => c :: new)
  else replaceLoop old new 0 s

/-- Go `strings.explode(s, n)`: `s` cut into single characters, at most `n`
pieces, the last piece holding the remainder. -/
def explode : Nat → List Char → List (List Char)
  | _, [] => []
  | 0, _ :: _ => []
  | 1, c :: cs => [c :: cs]
  | n + 2, c :: cs => [c] :: explode (n + 1) cs

/-- Main loop of Go `strings.genSplit`: cut at `sep` at most `k` times. -/
def splitLoop (sep : List Char) : Nat → List Char → List (List Char)
  | 0, s => [s]
  | k + 1, s =>
    match index sep s with
    | none => [s]
    | some m => s.take m :: splitLoop sep k (s.drop (m + sep.length))

/-- Go `strings.SplitN(s, sep, n)` on character lists. `n = 0` gives no
pieces, `n < 0` all pieces, `n > 0` at most `n` pieces with the last one
holding the unsplit remainder. -/
def splitN (s sep : List Char) (n : Int) : List (List Char) :=
  if n = 0 then []
  else if sep = [] then
    explode (if n < 0 then s.length else n.toNat) s
  else
    let pieces : Nat := if n < 0 then s.length + 1 else min n.toNat (s.length + 1)
    splitLoop sep (pieces - 1) s

/-- Go `strings.ReplaceAll`. -/
def ReplaceAll (s old new : String) : String :=
  ⟨replaceAll s.data old.data new.data⟩

/-- Go `strings.SplitN`. -/
def SplitN (s sep : String) (n : Int) : List String :=
  (splitN s.data sep.data n).map String.mk

end Strings

/-! ## Errors and outcomes -/

/-- Go `error` values as the provider builds them. -/
inductive GoError
  /-- Error value handed back by the HTTP client or a library call. -/
  | remote (msg : String)
  /-- Result of `errors.New(msg)` and `errors.Errorf(...)`. -/
  | new (msg : String)
  /-- Result of `errors.Wrap(cause, msg)`. -/
  | wrap (cause : GoError) (msg : String)
  /-- Result of `jira.NewJiraError(resp, cause)`. -/
  | jira (cause : GoError)
  deriving DecidableEq, Repr

/-- How a Go function with result type `error` ends: it returns (`nil` is
`none`) or the goroutine aborts with a run-time panic. -/
inductive Outcome
  | returned (err : Option GoError)
  | panicked (msg : String)
  deriving DecidableEq, Repr

/-! ## Wire types -/

/-- Go struct `JiraCloudGroup`. -/
structure JiraCloudGroup where
  Name : String
  GroupId : String
  Self : String
  deriving DecidableEq, Repr

/-- Go struct `Group`. -/
structure Group where
  Name : String
  deriving DecidableEq, Repr

/-- Go struct `Groups`. -/
structure Groups where
  Items : List Group
  deriving DecidableEq, Repr

/-- Go struct `UserGroups`. -/
structure UserGroups where
  Groups : Groups
  deriving DecidableEq, Repr

/-- Go struct `GroupMembership`, the body of the add-member call. -/
structure GroupMembership where
  AccountID : String
  deriving DecidableEq, Repr

/-- Go struct `jiraCloudUser` (the avatar URLs are not modelled). -/
structure jiraCloudUser where
  Self : String
  AccountID : String
  AccountType : String
  EmailAddress : String
  DisplayName : String
  Active : Bool
  TimeZone : String
  Locale : String
  deriving DecidableEq, Repr

/-- The fields of go-jira's `jira.User` that the provider reads or writes. -/
structure User where
  Key : String
  Name : String
  EmailAddress : String
  DisplayName : String
  deriving DecidableEq, Repr

/-! ## The remote side -/

/-- A remote call the provider performs. -/
inductive Call
  /-- `GET rest/api/3/user/groups?accountId=<id>` (sent by `isGroupMember`). -/
  | userGroupsGet (accountId : String)
  /-- `GET /rest/api/2/user?accountId=<id>&expand=groups` (sent by `getGroups`). -/
  | userExpandGroupsGet (accountId : String)
  /-- `POST <groupUserAPIEndpoint>?groupname=<group>` with a `GroupMembership` body. -/
  | groupUserPost (groupname : String) (body : GroupMembership)
  /-- `GET rest/api/3/user/search?query=<email>` (sent by `getUserByUsername`). -/
  | userSearchGet (query : String)
  /-- `GET <userAPIEndpoint>?key=<key>` (sent by `getUserByKey`). -/
  | userGet (key : String)
  /-- `jiraClient.User.Create(user)`. -/
  | userCreate (user : User)
  deriving DecidableEq, Repr

/-- One entry of the call log: the call and whether the remote answered it
without error. -/
structure Event where
  call : Call
  ok : Bool
  deriving DecidableEq, Repr

/-- Result of the pair `client.NewRequest` / `client.Do(req, v)`. -/
inductive DoResult (α : Type)
  /-- `NewRequest` failed; nothing was sent. -/
  | requestError (err : GoError)
  /-- `Do` returned `err`; `v` is the content of the decode target afterwards. -/
  | done (v : α) (err : Option GoError)

/-- The Jira client of `Config`, seen from the provider: every answer may depend
on the calls logged so far. `groupUserPost` is the helper `request` applied to
the add-member endpoint. -/
structure Client where
  userGroups : List Event → String → DoResult (List JiraCloudGroup)
  userExpandGroups : List Event → String → DoResult UserGroups
  groupUserPost : List Event → String → GroupMembership → Option GoError
  userSearch : List Event → String → DoResult (List jiraCloudUser)
  userByKey : List Event → String → DoResult User
  userCreate : List Event → User → Except GoError User

/-! ## `schema.ResourceData` -/

/-- The part of `schema.ResourceData` the provider touches: the resource id and
the string attributes that have an entry, either in the state and diff the data
was built from or written by `d.Set` since. An attribute of the configuration
reaches `attrs` only through the diff (see `diffEntry`). -/
structure ResourceData where
  id : String
  attrs : List (String × String)
  deriving DecidableEq, Repr

namespace ResourceData

/-- Go `d.Id()`. -/
def Id (d : ResourceData) : String := d.id

/-- Go `d.SetId(v)`. -/
def SetId (d : ResourceData) (v : String) : ResourceData := { d with id := v }

/-- Go `d.GetOkExists(key)` for a string attribute: the value (the zero value
`""` when there is no entry) and whether the attribute has an entry. The flag
tells nothing about the configuration by itself: on a new resource a string
attribute configured as `""` has no diff entry, so it reads `("", false)` like
an attribute that was left out. -/
def GetOkExists (d : ResourceData) (key : String) : String × Bool :=
  match d.attrs.lookup key with
  | some v => (v, true)
  | none => ("", false)

/-- Go `d.Get(key).(string)`. -/
def Get (d : ResourceData) (key : String) : String := (d.GetOkExists key).1

/-- Go `d.Set(key, value)`. -/
def Set (d : ResourceData) (key value : String) : ResourceData :=
  { d with attrs := (key, value) :: d.attrs.filter (fun kv => kv.1 != key) }

end ResourceData

/-- State threaded through an operation: the resource data and the log of the
remote calls issued so far, oldest first. -/
structure World where
  d : ResourceData
  log : List Event
  deriving DecidableEq, Repr

/-! ## `resource_group_membership.go` -/

/-- Go `getGroups(jiraClient, accountId)`. -/
def getGroups (c : Client) (log : List Event) (accountId : String) :
    Except GoError UserGroups × List Event :=
  match c.userExpandGroups log accountId with
  | .requestError err => (.error err, log)
  | .done _ (some err) =>
    (.error (.jira err), log ++ [⟨.userExpandGroupsGet accountId, false⟩])
  | .done user none => (.ok user, log ++ [⟨.userExpandGroupsGet accountId, true⟩])

/-- Go `isGroupMember(client, id, targetGroup)`: the membership flag and the
error. -/
def isGroupMember (c : Client) (log : List Event) (id targetGroup : String) :
    (Bool × Option GoError) × List Event :=
  match c.userGroups log id with
  | .requestError err => ((false, some err), log)
  | .done _ (some err) => ((false, some err), log ++ [⟨.userGroupsGet id, false⟩])
  | .done groups none =>
    ((groups.any (fun group => group.Name == targetGroup), none),
      log ++ [⟨.userGroupsGet id, true⟩])

/-- The id string `resourceGroupMembershipCreate` builds:
`fmt.Sprintf("%s:%s", strings.ReplaceAll(accountId, ":", "_"), group)`. -/
def membershipId (accountId group : String) : String :=
  let clean_id := Strings.ReplaceAll accountId ":" "_"
  clean_id ++ ":" ++ group

/-- The decoding at the head of `resourceGroupMembershipRead`:
`components := strings.SplitN(id, ":", 2)`, then
`strings.ReplaceAll(components[0], "_", ":")` and `components[1]`. `none` is the
run-time panic of an index out of range. -/
def decodeId (id : String) : Option (String × String) :=
  let components := Strings.SplitN id ":" 2
  match components[0]? with
  | none => none
  | some c0 =>
    let accountId := Strings.ReplaceAll c0 "_" ":"
    match components[1]? with
    | none => none
    | some groupname => some (accountId, groupname)

/-- Go `resourceGroupMembershipRead(d, m)`. -/
def resourceGroupMembershipRead (c : Client) (w : World) : Outcome × World :=
  match decodeId w.d.Id with
  | none => (.panicked "index out of range", w)
  | some (accountId, groupname) =>
    match getGroups c w.log accountId with
    | (.error err, log) =>
      (.returned (some (.wrap err "getting jira group failed")), { w with log := log })
    | (.ok groups, log) =>
      let d := (w.d.Set "account_id" accountId).Set "group" groupname
      if groups.Groups.Items.any (fun group => group.Name == groupname) then
        (.returned none, ⟨d, log⟩)
      else
        (.returned (some (.new ("Cannot find group " ++ groupname))), ⟨d, log⟩)

/-- Go `resourceGroupMembershipCreate(d, m)`. -/
def resourceGroupMembershipCreate (c : Client) (w : World) : Outcome × World :=
  let accountId := w.d.Get "account_id"
  let group := w.d.Get "group"
  match isGroupMember c w.log accountId group with
  | ((_, some err), log) =>
    (.returned (some (.wrap err "Request failed")), { w with log := log })
  | ((true, none), log) =>
    resourceGroupMembershipRead c ⟨w.d.SetId (membershipId accountId group), log⟩
  | ((false, none), log) =>
    let groupMembership : GroupMembership := ⟨accountId⟩
    match c.groupUserPost log group groupMembership with
    | some err =>
      (.returned (some (.wrap err "Request failed")),
        { w with log := log ++ [⟨.groupUserPost group groupMembership, false⟩] })
    | none =>
      resourceGroupMembershipRead c
        ⟨w.d.SetId (membershipId accountId group),
          log ++ [⟨.groupUserPost group groupMembership, true⟩]⟩

/-! ## `resource_user.go` -/

/-- Go `usernameFallbackSuppressFunc(k, old, new, d)`, the diff suppression of
`display_name`: an empty new value counts as equal to the old one when the old
one is the name. -/
def usernameFallbackSuppressFunc (_k old new : String) (d : ResourceData) : Bool :=
  if new == "" then old == d.Get "name"
  else old == new

/-- Go `getUserByKey(client, key)`. -/
def getUserByKey (c : Client) (log : List Event) (key : String) :
    Except GoError User × List Event :=
  match c.userByKey log key with
  | .requestError err => (.error err, log)
  | .done _ (some err) => (.error (.jira err), log ++ [⟨.userGet key, false⟩])
  | .done user none => (.ok user, log ++ [⟨.userGet key, true⟩])

/-- The search loop of `getUserByUsername`: index of the first entry whose
account type is `"atlassian"`, or `-1`. -/
def atlassianIndex : List jiraCloudUser → Int
  | [] => -1
  | user :: rest =>
    if user.AccountType == "atlassian" then 0
    else
      let i := atlassianIndex rest
      if i < 0 then -1 else i + 1

/-- Go `getUserByUsername(client, email)`. The bounds check of
`(*users)[userIndex]` is kept: `none` in the outer option would be the
out-of-range panic. -/
def getUserByUsername (c : Client) (log : List Event) (email : String) :
    Option (Except GoError jiraCloudUser) × List Event :=
  match c.userSearch log email with
  | .requestError err => (some (.error err), log)
  | .done users err =>
    let log1 := log ++ [⟨.userSearchGet email, err.isNone⟩]
    let userIndex := atlassianIndex users
    if userIndex < 0 then
      (some (.error (.new "jiraClient: User does not exist")), log1)
    else
      match users[userIndex.toNat]? with
      | none => (none, log1)
      | some user =>
        match err with
        | some e => (some (.error (.jira e)), log1)
        | none => (some (.ok user), log1)

/-- Go `dataUserRead(d, m)`. -/
def dataUserRead (c : Client) (w : World) : Outcome × World :=
  match getUserByUsername c w.log (w.d.Get "email") with
  | (none, log) => (.panicked "index out of range", { w with log := log })
  | (some (.error err), log) =>
    (.returned (some (.wrap err "getting jira user failed")), { w with log := log })
  | (some (.ok user), log) =>
    let d := w.d.SetId user.AccountID
    let d := d.Set "email" user.EmailAddress
    let d := d.Set "account_id" user.AccountID
    let d := d.Set "display_name" user.DisplayName
    (.returned none, ⟨d, log⟩)

/-- Go `resourceUserRead(d, m)`. -/
def resourceUserRead (c : Client) (w : World) : Outcome × World :=
  match getUserByKey c w.log w.d.Id with
  | (.error err, log) =>
    (.returned (some (.wrap err "getting jira user failed")), { w with log := log })
  | (.ok user, log) =>
    let d := w.d.Set "name" user.Name
    let d := d.Set "display_name" user.DisplayName
    let d := d.Set "email" user.EmailAddress
    (.returned none, ⟨d, log⟩)

/-- The `jira.User` value `resourceUserCreate` fills in before the create call
(lines 151 to 160); `Key` is left at its zero value. -/
def newUser (d : ResourceData) : User :=
  let name := d.Get "name"
  let email := d.Get "email"
  let (dn, ok) := d.GetOkExists "display_name"
  let displayName := if !ok then name else dn
  { Key := "", Name := name, EmailAddress := email, DisplayName := displayName }

/-- Go `resourceUserCreate(d, m)`. -/
def resourceUserCreate (c : Client) (w : World) : Outcome × World :=
  let user := newUser w.d
  match c.userCreate w.log user with
  | .error err =>
    (.returned (some (.wrap err "Request failed")),
      { w with log := w.log ++ [⟨.userCreate user, false⟩] })
  | .ok createdUser =>
    resourceUserRead c ⟨w.d.SetId createdUser.Key, w.log ++ [⟨.userCreate user, true⟩]⟩

/-! ## Observations on the call log -/

/-- Whether a logged call is an add-member call. -/
def Call.isAddMember : Call → Bool
  | .groupUserPost _ _ => true
  | _ => false

/-- The add-member calls of a log, in order. -/
def addMemberCalls (log : List Event) : List Event :=
  log.filter (fun e => e.call.isAddMember)

/-- The substitution `strings.ReplaceAll(_, ":", "_")` on one character. -/
def escapeChar (c : Char) : Char := if c = ':' then '_' else c

/-- The substitution `strings.ReplaceAll(_, "_", ":")` on one character. -/
def unescapeChar (c : Char) : Char := if c = '_' then ':' else c

/-- The successful add-member calls of a log: the mutations of the remote
membership relation that took effect. -/
def effectiveAddMemberCalls (log : List Event) : List Event :=
  log.filter (fun e => e.call.isAddMember && e.ok)

/-! ## Concrete remotes and inputs -/

/-- A remote that answers every lookup with an empty result and accepts every
mutation. -/
def quietClient : Client where
  userGroups := fun _ _ => .done [] none
  userExpandGroups := fun _ _ => .done ⟨⟨[]⟩⟩ none
  groupUserPost := fun _ _ _ => none
  userSearch := fun _ _ => .done [] none
  userByKey := fun _ key => .done ⟨key, "", "", ""⟩ none
  userCreate := fun _ user => .ok user

/-- A remote whose expanded user view lists exactly the given group names. -/
def listingClient (names : List String) : Client :=
  { quietClient with
    userExpandGroups := fun _ _ => .done ⟨⟨names.map Group.mk⟩⟩ none }

/-- A fresh world holding a resource with the given id and no attributes. -/
def worldWithId (id : String) : World := ⟨⟨id, []⟩, []⟩

/-- The diff entry the SDK makes for a string attribute of a resource that does
not exist yet (`schemaMap.diffString` with old value `""`): none when the
attribute is left out of the configuration (`none`) and none when it is
configured as `""`, since old and new value are then equal; otherwise the
configured value. -/
def diffEntry (key : String) (configured : Option String) : List (String × String) :=
  match configured with
  | none => []
  | some v => if v = "" then [] else [(key, v)]

/-- A fresh world for a membership resource configured with `account_id` and
`group`. -/
def membershipWorld (accountId group : String) : World :=
  ⟨⟨"", diffEntry "account_id" (some accountId) ++ diffEntry "group" (some group)⟩, []⟩

/-- A remote that reports `"admins"` in the pre-check listing while the expanded
user view fails with a transport error. -/
def unreadableMemberClient : Client :=
  { quietClient with
    userGroups := fun _ _ => .done [⟨"admins", "", ""⟩] none
    userExpandGroups := fun _ _ =>
      .done ⟨⟨[]⟩⟩ (some (.remote "503 Service Unavailable")) }

/-- A remote that keeps the membership relation: the pre-check listing holds
`"admins"` once an add-member call has succeeded. Its expanded user view fails
with a transport error. -/
def unreadableStatefulClient : Client :=
  { quietClient with
    userGroups := fun log _ =>
      .done (if (effectiveAddMemberCalls log).isEmpty then []
             else [⟨"admins", "", ""⟩]) none
    userExpandGroups := fun _ _ =>
      .done ⟨⟨[]⟩⟩ (some (.remote "503 Service Unavailable")) }

/-- A remote whose pre-check lookup fails. -/
def failingPrecheckClient : Client :=
  { quietClient with
    userGroups := fun _ _ => .done [] (some (.remote "401 Unauthorized")) }

/-- A remote that lists `"admins"` in both group views. -/
def adminsClient : Client :=
  { quietClient with
    userGroups := fun _ _ => .done [⟨"admins", "", ""⟩] none
    userExpandGroups := fun _ _ => .done ⟨⟨[⟨"admins"⟩]⟩⟩ none }

/-- A remote whose expanded user view lists many unrelated groups under other
names and ids. -/
def otherListingClient : Client :=
  { quietClient with
    userExpandGroups := fun _ _ => .done ⟨⟨[⟨"ops"⟩, ⟨"u1"⟩, ⟨"ADMINS"⟩]⟩⟩ none }

/-- An entry of a user search result with the given account type, e-mail
address and account id. -/
def searchEntry (accountType email accountId : String) : jiraCloudUser :=
  { Self := "", AccountID := accountId, AccountType := accountType,
    EmailAddress := email, DisplayName := "", Active := true, TimeZone := "",
    Locale := "" }

/-- A remote whose user search returns the given entries without error. -/
def searchClient (users : List jiraCloudUser) : Client :=
  { quietClient with userSearch := fun _ _ => .done users none }

/-- A fresh world for the user data source configured with `email`. -/
def lookupWorld (email : String) : World := ⟨⟨"", diffEntry "email" (some email)⟩, []⟩

/-- The resource data Create receives for a user resource that does not exist
yet; `displayName` is `none` when the configuration leaves `display_name` out
and `some v` when it sets it to `v`. -/
def userCreateData (name email : String) (displayName : Option String) : ResourceData :=
  ⟨"", diffEntry "name" (some name) ++ diffEntry "email" (some email)
        ++ diffEntry "display_name" displayName⟩

/-- A fresh world for a user resource with the given configuration. -/
def userWorld (name email : String) (displayName : Option String) : World :=
  ⟨userCreateData name email displayName, []⟩

/-- The create-user calls of a log, in order. -/
def createUserCalls (log : List Event) : List Call :=
  (log.filter (fun e => match e.call with
    | .userCreate _ => true
    | _ => false)).map Event.call

/-! ## Lemmas on the string functions -/

namespace Strings

theorem replaceLoop_single (a b : Char) (s : List Char) :
    replaceLoop [a] [b] 0 s = s.map (fun c => if c = a then b else c) := by
  induction s with
  | nil => rfl
  | cons c cs ih =>
    by_cases h : c = a
    · subst h
      simp [replaceLoop, List.isPrefixOf, ih]
    · have h2 : ¬ a = c := fun e => h e.symm
      simp [replaceLoop, List.isPrefixOf, ih, h, h2]

theorem replaceAll_single (a b : Char) (s : List Char) :
    replaceAll s [a] [b] = s.map (fun c => if c = a then b else c) := by
  simp [replaceAll, replaceLoop_single]

theorem index_single_none (c : Char) (s : List Char) (h : c ∉ s) :
    index [c] s = none := by
  induction s with
  | nil => simp [index]
  | cons x xs ih =>
    have hx : ¬ c = x := fun e => h (by simp [e])
    have hxs : c ∉ xs := fun e => h (by simp [e])
    simp [index, List.isPrefixOf, hx, ih hxs]

theorem index_single_first (c : Char) (a g : List Char) (h : c ∉ a) :
    index [c] (a ++ c :: g) = some a.length := by
  induction a with
  | nil => simp [index, List.isPrefixOf]
  | cons x xs ih =>
    have hx : ¬ c = x := fun e => h (by simp [e])
    have hxs : c ∉ xs := fun e => h (by simp [e])
    simp [index, List.isPrefixOf, hx, ih hxs]

theorem splitN_two_first (c : Char) (a g : List Char) (h : c ∉ a) :
    splitN (a ++ c :: g) [c] 2 = [a, g] := by
  have hlen : min (2 : Nat) ((a ++ c :: g).length + 1) - 1 = 1 := by
    simp only [List.length_append, List.length_cons]
    omega
  have hsplit : splitLoop [c] 1 (a ++ c :: g) = [a, g] := by
    simp [splitLoop, index_single_first c a g h]
  simp only [splitN]
  rw [if_neg (by decide), if_neg (by simp), if_neg (by decide)]
  show splitLoop [c] (min (Int.toNat 2) ((a ++ c :: g).length + 1) - 1) (a ++ c :: g) = [a, g]
  rw [show Int.toNat 2 = 2 from rfl, hlen, hsplit]

theorem splitN_two_none (c : Char) (s : List Char) (h : c ∉ s) :
    splitN s [c] 2 = [s] := by
  simp only [splitN]
  rcases Nat.lt_or_ge 0 (min (2 : Nat) (s.length + 1) - 1) with hk | hk
  · obtain ⟨k, hk2⟩ := Nat.exists_eq_succ_of_ne_zero (Nat.pos_iff_ne_zero.mp hk)
    simp [hk2, splitLoop, index_single_none c s h]
  · have hk0 : min (2 : Nat) (s.length + 1) - 1 = 0 := by omega
    simp [hk0, splitLoop]

/-- A list containing `c` splits at the first occurrence of `c`. -/
theorem exists_first_split (c : Char) (s : List Char) (h : c ∈ s) :
    ∃ a g, s = a ++ c :: g ∧ c ∉ a := by
  induction s with
  | nil => simp at h
  | cons x xs ih =>
    by_cases hx : x = c
    · exact ⟨[], xs, by simp [hx], by simp⟩
    · have hmem : c ∈ xs := by
        rcases List.mem_cons.mp h with e | e
        · exact absurd e.symm hx
        · exact e
      obtain ⟨a, g, hs, ha⟩ := ih hmem
      refine ⟨x :: a, g, by simp [hs], ?_⟩
      intro hc
      rcases List.mem_cons.mp hc with e | e
      · exact hx e.symm
      · exact ha e

end Strings

/-! ## Lemmas on the identity codec -/

theorem ReplaceAll_escape (s : String) :
    Strings.ReplaceAll s ":" "_" = ⟨s.data.map escapeChar⟩ := by
  show String.mk (Strings.replaceAll s.data [':'] ['_']) = _
  rw [Strings.replaceAll_single]
  rfl

theorem ReplaceAll_unescape (s : String) :
    Strings.ReplaceAll s "_" ":" = ⟨s.data.map unescapeChar⟩ := by
  show String.mk (Strings.replaceAll s.data ['_'] [':']) = _
  rw [Strings.replaceAll_single]
  rfl

theorem membershipId_data (accountId group : String) :
    (membershipId accountId group).data
      = accountId.data.map escapeChar ++ ':' :: group.data := by
  simp only [membershipId, ReplaceAll_escape, String.data_append]
  show (List.map escapeChar accountId.data ++ [':']) ++ group.data = _
  simp

theorem escapeChar_ne_colon (c : Char) : escapeChar c ≠ ':' := by
  unfold escapeChar
  split
  · decide
  · assumption

theorem colon_not_mem_escape (s : List Char) : ':' ∉ s.map escapeChar := by
  intro h
  obtain ⟨c, _, hc⟩ := List.mem_map.mp h
  exact escapeChar_ne_colon c hc

theorem unescape_escape (c : Char) : unescapeChar (escapeChar c) = unescapeChar c := by
  unfold escapeChar unescapeChar
  by_cases h1 : c = ':'
  · subst h1; decide
  · simp [h1]

theorem escape_unescape_of_ne (c : Char) (h : c ≠ ':') :
    escapeChar (unescapeChar c) = c := by
  unfold escapeChar unescapeChar
  by_cases h1 : c = '_'
  · subst h1; decide
  · simp [h1, h]

theorem map_unescape_eq_self_iff (s : List Char) :
    s.map unescapeChar = s ↔ '_' ∉ s := by
  induction s with
  | nil => simp
  | cons c cs ih =>
    simp only [List.map_cons, List.cons.injEq, List.mem_cons, not_or, ih]
    constructor
    · rintro ⟨h1, h2⟩
      refine ⟨?_, h2⟩
      intro e
      rw [← e] at h1
      exact absurd h1 (by decide)
    · rintro ⟨h1, h2⟩
      refine ⟨?_, h2⟩
      have : ¬ c = '_' := fun e => h1 e.symm
      simp [unescapeChar, this]

/-- Decoding an id whose first `':'` sits right after `a`. -/
theorem decodeId_split (a g : List Char) (h : ':' ∉ a) :
    decodeId ⟨a ++ ':' :: g⟩ = some (⟨a.map unescapeChar⟩, ⟨g⟩) := by
  have hs : Strings.SplitN ⟨a ++ ':' :: g⟩ ":" 2 = [⟨a⟩, ⟨g⟩] := by
    show (Strings.splitN (a ++ ':' :: g) [':'] 2).map String.mk = _
    rw [Strings.splitN_two_first ':' a g h]
    rfl
  simp only [decodeId, hs, ReplaceAll_unescape]
  rfl

/-- Decoding an id without `':'` runs into the index panic. -/
theorem decodeId_no_delimiter (id : String) (h : ':' ∉ id.data) :
    decodeId id = none := by
  have hs : Strings.SplitN id ":" 2 = [id] := by
    show (Strings.splitN id.data [':'] 2).map String.mk = _
    rw [Strings.splitN_two_none ':' id.data h]
    rfl
  simp only [decodeId, hs]
  rfl

/-- What Read decodes from an id that Create built. -/
theorem decodeId_membershipId (accountId group : String) :
    decodeId (membershipId accountId group)
      = some (Strings.ReplaceAll accountId "_" ":", group) := by
  have hd : membershipId accountId group
      = ⟨accountId.data.map escapeChar ++ ':' :: group.data⟩ :=
    String.ext (membershipId_data accountId group)
  rw [hd, decodeId_split _ _ (colon_not_mem_escape _), ReplaceAll_unescape]
  simp [List.map_map, Function.comp_def, unescape_escape]

theorem append_colon_data (a g : String) :
    a ++ ":" ++ g = ⟨a.data ++ ':' :: g.data⟩ := by
  apply String.ext
  simp only [String.data_append]
  show (a.data ++ [':']) ++ g.data = _
  simp

theorem decodeId_append (a g : String) (ha : ':' ∉ a.data) :
    decodeId (a ++ ":" ++ g) = some (Strings.ReplaceAll a "_" ":", g) := by
  rw [append_colon_data, decodeId_split _ _ ha, ReplaceAll_unescape]

/-- An id containing `':'` is `a ++ ":" ++ g` with no `':'` in `a`. -/
theorem exists_split_id (id : String) (h : ':' ∈ id.data) :
    ∃ a g : String, id = a ++ ":" ++ g ∧ ':' ∉ a.data := by
  obtain ⟨a, g, hs, ha⟩ := Strings.exists_first_split ':' id.data h
  refine ⟨⟨a⟩, ⟨g⟩, ?_, ha⟩
  rw [append_colon_data]
  exact String.ext hs

/-! ## Lemmas on `resourceGroupMembershipRead` -/

/-- Read on a decodable id whose group lookup returns a listing. -/
theorem read_of_listing (c : Client) (w : World) (acct grp : String) (u : UserGroups)
    (hdec : decodeId w.d.id = some (acct, grp))
    (hl : c.userExpandGroups w.log acct = .done u none) :
    resourceGroupMembershipRead c w
      = (if u.Groups.Items.any (fun group => group.Name == grp) then .returned none
          else .returned (some (.new ("Cannot find group " ++ grp))),
         ⟨(w.d.Set "account_id" acct).Set "group" grp,
          w.log ++ [⟨.userExpandGroupsGet acct, true⟩]⟩) := by
  simp only [resourceGroupMembershipRead, ResourceData.Id, hdec, getGroups, hl]
  split <;> rfl

theorem read_not_panicked (c : Client) (w : World) (acct grp : String)
    (hdec : decodeId w.d.id = some (acct, grp)) (msg : String) :
    (resourceGroupMembershipRead c w).1 ≠ .panicked msg := by
  simp only [resourceGroupMembershipRead, ResourceData.Id, hdec, getGroups]
  cases c.userExpandGroups w.log acct with
  | requestError err => simp
  | done v err =>
    cases err with
    | some e => simp
    | none =>
      simp only
      split <;> simp

theorem read_id (c : Client) (w : World) :
    (resourceGroupMembershipRead c w).2.d.id = w.d.id := by
  simp only [resourceGroupMembershipRead, ResourceData.Id, getGroups]
  cases decodeId w.d.id with
  | none => rfl
  | some p =>
    obtain ⟨acct, grp⟩ := p
    simp only
    cases c.userExpandGroups w.log acct with
    | requestError err => rfl
    | done v err =>
      cases err with
      | some e => rfl
      | none =>
        simp only
        split <;> rfl

theorem read_log (c : Client) (w : World) :
    ∃ evs, (resourceGroupMembershipRead c w).2.log = w.log ++ evs
      ∧ ∀ e ∈ evs, e.call.isAddMember = false := by
  simp only [resourceGroupMembershipRead, ResourceData.Id, getGroups]
  cases decodeId w.d.id with
  | none => exact ⟨[], by simp, by simp⟩
  | some p =>
    obtain ⟨acct, grp⟩ := p
    simp only
    cases c.userExpandGroups w.log acct with
    | requestError err => exact ⟨[], by simp, by simp⟩
    | done v err =>
      cases err with
      | some e => exact ⟨[_], rfl, by simp [Call.isAddMember]⟩
      | none =>
        simp only
        split <;> exact ⟨[_], rfl, by simp [Call.isAddMember]⟩

theorem any_name_iff (items : List Group) (grp : String) :
    items.any (fun group => group.Name == grp) = true
      ↔ ∃ group ∈ items, group.Name = grp := by
  simp [List.any_eq_true]

/-! ## Identity codec -/

/-- C1 (as the code behaves): decoding the id that Create builds from
`(account_id, group)` gives `(account_id with every '_' turned into ':', group)`;
the group always comes back unchanged, and the pair comes back unchanged exactly
when `account_id` contains no `'_'` (empty strings and `':'` are fine). -/
theorem membership_id_roundtrip (accountId group : String) :
    decodeId (membershipId accountId group)
        = some (Strings.ReplaceAll accountId "_" ":", group)
      ∧ (decodeId (membershipId accountId group) = some (accountId, group)
          ↔ '_' ∉ accountId.data) := by
  refine ⟨decodeId_membershipId accountId group, ?_⟩
  rw [decodeId_membershipId, ReplaceAll_unescape]
  constructor
  · intro h
    have h1 : (⟨accountId.data.map unescapeChar⟩ : String) = accountId :=
      congrArg Prod.fst (Option.some.inj h)
    exact (map_unescape_eq_self_iff accountId.data).mp (congrArg String.data h1)
  · intro h
    have h1 : accountId.data.map unescapeChar = accountId.data :=
      (map_unescape_eq_self_iff accountId.data).mpr h
    rw [h1]

/-- C1 fails as stated: an account id containing the placeholder `'_'` does not
survive the round trip; `("a_b", "admins")` comes back as `("a:b", "admins")`. -/
theorem placeholder_lost_in_decoding :
    decodeId (membershipId "a_b" "admins") = some ("a:b", "admins")
      ∧ decodeId (membershipId "a_b" "admins") ≠ some ("a_b", "admins") := by
  decide

/-- C10: an id containing at least one `':'` decodes (as Read does) to a pair
that Create's encoding maps back to the very same id string. -/
theorem repack_decoded_id (id : String) (h : ':' ∈ id.data) :
    ∃ accountId group, decodeId id = some (accountId, group)
      ∧ membershipId accountId group = id := by
  obtain ⟨a, g, hid, ha⟩ := exists_split_id id h
  refine ⟨Strings.ReplaceAll a "_" ":", g, ?_, ?_⟩
  · rw [hid, decodeId_append a g ha]
  · apply String.ext
    rw [membershipId_data, ReplaceAll_unescape, hid, append_colon_data]
    simp only [List.map_map]
    congr 1
    conv_rhs => rw [← List.map_id a.data]
    apply List.map_congr_left
    intro c hc
    have hne : c ≠ ':' := fun e => ha (e ▸ hc)
    simp [escape_unescape_of_ne c hne]

/-- Witness for C10 at the imported id `"ab_c:dev:ops"`. -/
theorem repack_decoded_id_witness :
    ':' ∈ ("ab_c:dev:ops" : String).data
      ∧ ∃ accountId group, decodeId "ab_c:dev:ops" = some (accountId, group)
          ∧ membershipId accountId group = "ab_c:dev:ops" :=
  ⟨by decide, repack_decoded_id "ab_c:dev:ops" (by decide)⟩

/-! ## Membership Read -/

/-- C2 (as the code behaves): an id with at least one `':'`, also with two or
more, is never rejected as malformed. Read splits it at the first `':'` only,
does not panic, and succeeds whenever the group lookup returns a listing that
contains the decoded group name (everything after the first `':'`). -/
theorem read_accepts_id_with_delimiter (c : Client) (w : World)
    (h : ':' ∈ w.d.id.data) :
    ∃ a g : String, w.d.id = a ++ ":" ++ g ∧ ':' ∉ a.data
      ∧ decodeId w.d.id = some (Strings.ReplaceAll a "_" ":", g)
      ∧ (∀ msg, (resourceGroupMembershipRead c w).1 ≠ .panicked msg)
      ∧ ∀ u : UserGroups,
          c.userExpandGroups w.log (Strings.ReplaceAll a "_" ":") = .done u none →
          (∃ group ∈ u.Groups.Items, group.Name = g) →
          (resourceGroupMembershipRead c w).1 = .returned none := by
  obtain ⟨a, g, hid, ha⟩ := exists_split_id w.d.id h
  have hdec : decodeId w.d.id = some (Strings.ReplaceAll a "_" ":", g) := by
    rw [hid, decodeId_append a g ha]
  refine ⟨a, g, hid, ha, hdec, fun msg => read_not_panicked c w _ _ hdec msg, ?_⟩
  intro u hl hex
  rw [read_of_listing c w _ _ u hdec hl]
  simp only [(any_name_iff u.Groups.Items g).mpr hex, if_true]

/-- Witness for C2 at the id `"a:b:c"`, which holds two delimiters. -/
theorem read_accepts_id_with_delimiter_witness :
    ':' ∈ (worldWithId "a:b:c").d.id.data
      ∧ ∃ a g : String, (worldWithId "a:b:c").d.id = a ++ ":" ++ g ∧ ':' ∉ a.data
        ∧ decodeId (worldWithId "a:b:c").d.id = some (Strings.ReplaceAll a "_" ":", g)
        ∧ (∀ msg, (resourceGroupMembershipRead (listingClient ["b:c"])
              (worldWithId "a:b:c")).1 ≠ .panicked msg)
        ∧ ∀ u : UserGroups,
            (listingClient ["b:c"]).userExpandGroups (worldWithId "a:b:c").log
                (Strings.ReplaceAll a "_" ":") = .done u none →
            (∃ group ∈ u.Groups.Items, group.Name = g) →
            (resourceGroupMembershipRead (listingClient ["b:c"])
              (worldWithId "a:b:c")).1 = .returned none :=
  ⟨by decide,
    read_accepts_id_with_delimiter (listingClient ["b:c"]) (worldWithId "a:b:c")
      (by decide)⟩

/-- C2 fails as stated: the id `"a:b:c"` holds two `':'`, yet Read accepts it,
decodes it to account `"a"` and group `"b:c"`, and returns success when the
remote lists that group; no error is returned. -/
theorem read_accepts_two_delimiters :
    decodeId "a:b:c" = some ("a", "b:c")
      ∧ resourceGroupMembershipRead (listingClient ["b:c"]) (worldWithId "a:b:c")
          = (.returned none,
             ⟨⟨"a:b:c", [("group", "b:c"), ("account_id", "a")]⟩,
              [⟨.userExpandGroupsGet "a", true⟩]⟩) := by
  decide

/-- An id without any `':'` makes Read abort with the index panic, whatever the
remote would answer. -/
theorem read_panics_without_delimiter (c : Client) (w : World)
    (h : ':' ∉ w.d.id.data) :
    resourceGroupMembershipRead c w = (.panicked "index out of range", w) := by
  simp [resourceGroupMembershipRead, ResourceData.Id, decodeId_no_delimiter w.d.id h]

/-- C3: for a well-formed id `a ++ ":" ++ g` (no `':'` in `a`) and a group
listing `u` returned without error, Read returns success exactly when some
listed group has the name `g`, compared as strings; otherwise it returns the
error `Cannot find group g`. -/
theorem read_existence_check (c : Client) (w : World) (a g : String) (u : UserGroups)
    (hid : w.d.id = a ++ ":" ++ g) (ha : ':' ∉ a.data)
    (hl : c.userExpandGroups w.log (Strings.ReplaceAll a "_" ":") = .done u none) :
    ((resourceGroupMembershipRead c w).1 = .returned none
        ↔ ∃ group ∈ u.Groups.Items, group.Name = g)
      ∧ ((¬ ∃ group ∈ u.Groups.Items, group.Name = g) →
          (resourceGroupMembershipRead c w).1
            = .returned (some (.new ("Cannot find group " ++ g)))) := by
  have hdec : decodeId w.d.id = some (Strings.ReplaceAll a "_" ":", g) := by
    rw [hid, decodeId_append a g ha]
  rw [read_of_listing c w _ _ u hdec hl]
  by_cases hany : u.Groups.Items.any (fun group => group.Name == g) = true
  · have hex := (any_name_iff u.Groups.Items g).mp hany
    simp only [hany, if_true, true_iff]
    exact ⟨hex, fun hn => absurd hex hn⟩
  · have hnex : ¬ ∃ group ∈ u.Groups.Items, group.Name = g :=
      fun hex => hany ((any_name_iff u.Groups.Items g).mpr hex)
    simp only [hany]
    refine ⟨⟨fun h => ?_, fun h => absurd h hnex⟩, fun _ => rfl⟩
    simp at h

/-- Witness for C3: the id `"u1:admins"` against a listing that holds only
`"Admins"` is answered with `Cannot find group admins`. -/
theorem read_existence_check_witness :
    (resourceGroupMembershipRead (listingClient ["Admins"]) (worldWithId "u1:admins")).1
      = .returned (some (.new "Cannot find group admins")) :=
  (read_existence_check (listingClient ["Admins"]) (worldWithId "u1:admins")
    "u1" "admins" ⟨⟨[⟨"Admins"⟩]⟩⟩ (by decide) (by decide) rfl).2 (by decide)

/-! ## Membership Create -/

theorem read_success_iff (c : Client) (w : World) (acct grp : String)
    (hdec : decodeId w.d.id = some (acct, grp)) :
    (resourceGroupMembershipRead c w).1 = .returned none
      ↔ ∃ u, c.userExpandGroups w.log acct = .done u none
          ∧ ∃ group ∈ u.Groups.Items, group.Name = grp := by
  cases hl : c.userExpandGroups w.log acct with
  | requestError err =>
    simp [resourceGroupMembershipRead, ResourceData.Id, hdec, getGroups, hl]
  | done v err =>
    cases err with
    | some e => simp [resourceGroupMembershipRead, ResourceData.Id, hdec, getGroups, hl]
    | none =>
      rw [read_of_listing c w acct grp v hdec hl]
      by_cases hany : v.Groups.Items.any (fun group => group.Name == grp) = true
      · have hex := (any_name_iff v.Groups.Items grp).mp hany
        simp only [hany, if_true, true_iff]
        exact ⟨v, rfl, hex⟩
      · have hnex : ¬ ∃ group ∈ v.Groups.Items, group.Name = grp :=
          fun hex => hany ((any_name_iff v.Groups.Items grp).mpr hex)
        simp only [hany]
        constructor
        · intro h
          simp at h
        · rintro ⟨u, hu, hex⟩
          have huv : u = v := by
            injection hu with h1 _
            exact h1.symm
          exact absurd (huv ▸ hex) hnex

theorem isGroupMember_log (c : Client) (log : List Event) (id grp : String) :
    ∃ evs, (isGroupMember c log id grp).2 = log ++ evs
      ∧ ∀ e ∈ evs, e.call.isAddMember = false := by
  simp only [isGroupMember]
  cases c.userGroups log id with
  | requestError err => exact ⟨[], by simp, by simp⟩
  | done v err =>
    cases err with
    | some e => exact ⟨[_], rfl, by simp [Call.isAddMember]⟩
    | none => exact ⟨[_], rfl, by simp [Call.isAddMember]⟩

theorem addMemberCalls_append_other (log evs : List Event)
    (h : ∀ e ∈ evs, e.call.isAddMember = false) :
    addMemberCalls (log ++ evs) = addMemberCalls log := by
  have hnil : evs.filter (fun e => e.call.isAddMember) = [] := by
    rw [List.filter_eq_nil_iff]
    intro e he
    simp [h e he]
  simp [addMemberCalls, List.filter_append, hnil]

theorem effective_append_other (log evs : List Event)
    (h : ∀ e ∈ evs, e.call.isAddMember = false) :
    effectiveAddMemberCalls (log ++ evs) = effectiveAddMemberCalls log := by
  have hnil : evs.filter (fun e => e.call.isAddMember && e.ok) = [] := by
    rw [List.filter_eq_nil_iff]
    intro e he
    simp [h e he]
  simp [effectiveAddMemberCalls, List.filter_append, hnil]

/-- The trailing Read of Create leaves the add-member calls of the log alone. -/
theorem read_addMemberCalls (c : Client) (w : World) :
    addMemberCalls (resourceGroupMembershipRead c w).2.log = addMemberCalls w.log := by
  obtain ⟨evs, hlog, hev⟩ := read_log c w
  rw [hlog, addMemberCalls_append_other _ _ hev]

theorem read_effective (c : Client) (w : World) :
    effectiveAddMemberCalls (resourceGroupMembershipRead c w).2.log
      = effectiveAddMemberCalls w.log := by
  obtain ⟨evs, hlog, hev⟩ := read_log c w
  rw [hlog, effective_append_other _ _ hev]

theorem isGroupMember_addMemberCalls (c : Client) (log log1 : List Event)
    (id grp : String) (r : Bool × Option GoError)
    (h : isGroupMember c log id grp = (r, log1)) :
    addMemberCalls log1 = addMemberCalls log := by
  obtain ⟨evs, hlog, hev⟩ := isGroupMember_log c log id grp
  rw [h] at hlog
  simp only at hlog
  rw [hlog, addMemberCalls_append_other _ _ hev]

theorem isGroupMember_effective (c : Client) (log log1 : List Event)
    (id grp : String) (r : Bool × Option GoError)
    (h : isGroupMember c log id grp = (r, log1)) :
    effectiveAddMemberCalls log1 = effectiveAddMemberCalls log := by
  obtain ⟨evs, hlog, hev⟩ := isGroupMember_log c log id grp
  rw [h] at hlog
  simp only at hlog
  rw [hlog, effective_append_other _ _ hev]

/-- Create when the pre-check reports membership: straight to Read. -/
theorem create_of_member (c : Client) (w : World) (log1 : List Event)
    (h : isGroupMember c w.log (w.d.Get "account_id") (w.d.Get "group")
          = ((true, none), log1)) :
    resourceGroupMembershipCreate c w
      = resourceGroupMembershipRead c
          ⟨w.d.SetId (membershipId (w.d.Get "account_id") (w.d.Get "group")), log1⟩ := by
  simp only [resourceGroupMembershipCreate, h]

/-- Create when the pre-check reports no membership and the add-member call
succeeds. -/
theorem create_of_added (c : Client) (w : World) (log1 : List Event)
    (h : isGroupMember c w.log (w.d.Get "account_id") (w.d.Get "group")
          = ((false, none), log1))
    (hp : c.groupUserPost log1 (w.d.Get "group") ⟨w.d.Get "account_id"⟩ = none) :
    resourceGroupMembershipCreate c w
      = resourceGroupMembershipRead c
          ⟨w.d.SetId (membershipId (w.d.Get "account_id") (w.d.Get "group")),
           log1 ++ [⟨.groupUserPost (w.d.Get "group") ⟨w.d.Get "account_id"⟩, true⟩]⟩ := by
  simp only [resourceGroupMembershipCreate, h, hp]

/-- Create when the pre-check reports no membership and the add-member call
fails. -/
theorem create_of_add_failed (c : Client) (w : World) (log1 : List Event)
    (err : GoError)
    (h : isGroupMember c w.log (w.d.Get "account_id") (w.d.Get "group")
          = ((false, none), log1))
    (hp : c.groupUserPost log1 (w.d.Get "group") ⟨w.d.Get "account_id"⟩ = some err) :
    resourceGroupMembershipCreate c w
      = (.returned (some (.wrap err "Request failed")),
         { w with log := log1
            ++ [⟨.groupUserPost (w.d.Get "group") ⟨w.d.Get "account_id"⟩, false⟩] }) := by
  simp only [resourceGroupMembershipCreate, h, hp]

/-- Create when the pre-check itself fails. -/
theorem create_of_precheck_failed (c : Client) (w : World) (log1 : List Event)
    (b : Bool) (err : GoError)
    (h : isGroupMember c w.log (w.d.Get "account_id") (w.d.Get "group")
          = ((b, some err), log1)) :
    resourceGroupMembershipCreate c w
      = (.returned (some (.wrap err "Request failed")), { w with log := log1 }) := by
  simp only [resourceGroupMembershipCreate, h]

/-- C4 (as the code behaves): when the pre-check reports the entity already in
the group, Create issues no add-member call, sets the id to the packed pair and
then runs Read on it; it never panics, and it succeeds exactly when that Read
does, that is when the expanded group lookup for the decoded account id returns
without error a listing that contains the group. -/
theorem create_member_path (c : Client) (w : World) (log1 : List Event)
    (h : isGroupMember c w.log (w.d.Get "account_id") (w.d.Get "group")
          = ((true, none), log1)) :
    addMemberCalls (resourceGroupMembershipCreate c w).2.log = addMemberCalls w.log
      ∧ (resourceGroupMembershipCreate c w).2.d.id
          = membershipId (w.d.Get "account_id") (w.d.Get "group")
      ∧ resourceGroupMembershipCreate c w
          = resourceGroupMembershipRead c
              ⟨w.d.SetId (membershipId (w.d.Get "account_id") (w.d.Get "group")), log1⟩
      ∧ (∀ msg, (resourceGroupMembershipCreate c w).1 ≠ .panicked msg)
      ∧ ((resourceGroupMembershipCreate c w).1 = .returned none
          ↔ ∃ u, c.userExpandGroups log1
                  (Strings.ReplaceAll (w.d.Get "account_id") "_" ":") = .done u none
              ∧ ∃ group ∈ u.Groups.Items, group.Name = w.d.Get "group") := by
  have hc := create_of_member c w log1 h
  have hdec := decodeId_membershipId (w.d.Get "account_id") (w.d.Get "group")
  refine ⟨?_, ?_, hc, ?_, ?_⟩
  · rw [hc, read_addMemberCalls]
    exact isGroupMember_addMemberCalls c w.log log1 _ _ _ h
  · rw [hc, read_id]
    rfl
  · intro msg
    rw [hc]
    exact read_not_panicked c
      ⟨w.d.SetId (membershipId (w.d.Get "account_id") (w.d.Get "group")), log1⟩
      (Strings.ReplaceAll (w.d.Get "account_id") "_" ":") (w.d.Get "group") hdec msg
  · rw [hc]
    exact read_success_iff c
      ⟨w.d.SetId (membershipId (w.d.Get "account_id") (w.d.Get "group")), log1⟩
      (Strings.ReplaceAll (w.d.Get "account_id") "_" ":") (w.d.Get "group") hdec

/-- Witness for C4: entity `"u1"` already in `"admins"` on a remote that lists
the group in both views. -/
theorem create_member_path_witness :
    addMemberCalls
        (resourceGroupMembershipCreate adminsClient (membershipWorld "u1" "admins")).2.log
        = []
      ∧ (resourceGroupMembershipCreate adminsClient (membershipWorld "u1" "admins")).2.d.id
          = "u1:admins"
      ∧ (resourceGroupMembershipCreate adminsClient (membershipWorld "u1" "admins")).1
          = .returned none :=
  have h := create_member_path adminsClient (membershipWorld "u1" "admins")
    [⟨.userGroupsGet "u1", true⟩] (by decide)
  ⟨h.1, h.2.1, h.2.2.2.2.mpr ⟨⟨⟨[⟨"admins"⟩]⟩⟩, rfl, ⟨"admins"⟩, by decide, rfl⟩⟩

/-- C4 fails as stated: the pre-check reports `"u1"` a member of `"admins"`, no
add-member call is issued and the id is set, yet Create returns the error of
its trailing Read. -/
theorem member_precheck_then_read_error :
    (isGroupMember unreadableMemberClient [] "u1" "admins").1 = (true, none)
      ∧ resourceGroupMembershipCreate unreadableMemberClient (membershipWorld "u1" "admins")
          = (.returned (some (.wrap (.jira (.remote "503 Service Unavailable"))
                "getting jira group failed")),
             ⟨⟨"u1:admins", [("account_id", "u1"), ("group", "admins")]⟩,
              [⟨.userGroupsGet "u1", true⟩, ⟨.userExpandGroupsGet "u1", false⟩]⟩) := by
  decide

/-- C5: when the pre-check succeeds and reports the entity not in the group,
Create issues exactly one add-member call, for `groupname = group` with the
unescaped account id in the body, and when that call succeeds the id is the
packed pair. -/
theorem create_non_member_path (c : Client) (w : World) (log1 : List Event)
    (h : isGroupMember c w.log (w.d.Get "account_id") (w.d.Get "group")
          = ((false, none), log1)) :
    addMemberCalls (resourceGroupMembershipCreate c w).2.log
        = addMemberCalls w.log
          ++ [⟨.groupUserPost (w.d.Get "group") ⟨w.d.Get "account_id"⟩,
               (c.groupUserPost log1 (w.d.Get "group") ⟨w.d.Get "account_id"⟩).isNone⟩]
      ∧ (c.groupUserPost log1 (w.d.Get "group") ⟨w.d.Get "account_id"⟩ = none →
          (resourceGroupMembershipCreate c w).2.d.id
            = membershipId (w.d.Get "account_id") (w.d.Get "group")) := by
  have hpre := isGroupMember_addMemberCalls c w.log log1 _ _ _ h
  constructor
  · cases hp : c.groupUserPost log1 (w.d.Get "group") ⟨w.d.Get "account_id"⟩ with
    | some err =>
      rw [create_of_add_failed c w log1 err h hp]
      simp only [addMemberCalls, List.filter_append] at hpre ⊢
      rw [hpre]
      simp [Call.isAddMember]
    | none =>
      rw [create_of_added c w log1 h hp, read_addMemberCalls]
      simp only [addMemberCalls, List.filter_append] at hpre ⊢
      rw [hpre]
      simp [Call.isAddMember]
  · intro hp
    rw [create_of_added c w log1 h hp, read_id]
    rfl

/-- Witness for C5: entity `"u1"`, group `"admins"`, not yet a member: one
add-member call, id `"u1:admins"`. -/
theorem create_non_member_path_witness :
    addMemberCalls
        (resourceGroupMembershipCreate quietClient (membershipWorld "u1" "admins")).2.log
        = [⟨.groupUserPost "admins" ⟨"u1"⟩, true⟩]
      ∧ (resourceGroupMembershipCreate quietClient (membershipWorld "u1" "admins")).2.d.id
          = "u1:admins" :=
  have h := create_non_member_path quietClient (membershipWorld "u1" "admins")
    [⟨.userGroupsGet "u1", true⟩] (by decide)
  ⟨h.1, h.2 rfl⟩

/-- C9 (as the code behaves): when Create returns an error, either no add-member
call took effect during that Create, or the pre-check reported no membership,
the single add-member call succeeded, and the error is the one of the trailing
Read; in that case the mutation stays in place. -/
theorem create_failure_effects (c : Client) (w : World) (err : GoError)
    (h : (resourceGroupMembershipCreate c w).1 = .returned (some err)) :
    effectiveAddMemberCalls (resourceGroupMembershipCreate c w).2.log
        = effectiveAddMemberCalls w.log
      ∨ ∃ log1,
          isGroupMember c w.log (w.d.Get "account_id") (w.d.Get "group")
              = ((false, none), log1)
            ∧ c.groupUserPost log1 (w.d.Get "group") ⟨w.d.Get "account_id"⟩ = none
            ∧ (resourceGroupMembershipRead c
                ⟨w.d.SetId (membershipId (w.d.Get "account_id") (w.d.Get "group")),
                 log1 ++ [⟨.groupUserPost (w.d.Get "group") ⟨w.d.Get "account_id"⟩,
                            true⟩]⟩).1 = .returned (some err)
            ∧ effectiveAddMemberCalls (resourceGroupMembershipCreate c w).2.log
                = effectiveAddMemberCalls w.log
                  ++ [⟨.groupUserPost (w.d.Get "group") ⟨w.d.Get "account_id"⟩, true⟩] := by
  rcases hm : isGroupMember c w.log (w.d.Get "account_id") (w.d.Get "group")
    with ⟨⟨b, e⟩, log1⟩
  have hpre := isGroupMember_effective c w.log log1 _ _ _ hm
  cases e with
  | some e1 =>
    left
    rw [create_of_precheck_failed c w log1 b e1 hm]
    exact hpre
  | none =>
    cases b with
    | true =>
      left
      rw [create_of_member c w log1 hm, read_effective]
      exact hpre
    | false =>
      cases hp : c.groupUserPost log1 (w.d.Get "group") ⟨w.d.Get "account_id"⟩ with
      | some e2 =>
        left
        rw [create_of_add_failed c w log1 e2 hm hp]
        simp only [effectiveAddMemberCalls, List.filter_append] at hpre ⊢
        rw [hpre]
        simp
      | none =>
        right
        refine ⟨log1, rfl, hp, ?_, ?_⟩
        · rw [create_of_added c w log1 hm hp] at h
          exact h
        · rw [create_of_added c w log1 hm hp, read_effective]
          simp only [effectiveAddMemberCalls, List.filter_append] at hpre ⊢
          rw [hpre]
          simp [Call.isAddMember]

/-- Witness for C9: a Create whose pre-check fails returns the wrapped error
and no add-member call has taken effect. -/
theorem create_failure_effects_witness :
    (resourceGroupMembershipCreate failingPrecheckClient (membershipWorld "u1" "admins")).1
        = .returned (some (.wrap (.remote "401 Unauthorized") "Request failed"))
      ∧ (effectiveAddMemberCalls
            (resourceGroupMembershipCreate failingPrecheckClient
              (membershipWorld "u1" "admins")).2.log
            = effectiveAddMemberCalls (membershipWorld "u1" "admins").log
          ∨ ∃ log1,
              isGroupMember failingPrecheckClient (membershipWorld "u1" "admins").log
                  ((membershipWorld "u1" "admins").d.Get "account_id")
                  ((membershipWorld "u1" "admins").d.Get "group")
                  = ((false, none), log1)
                ∧ failingPrecheckClient.groupUserPost log1
                    ((membershipWorld "u1" "admins").d.Get "group")
                    ⟨(membershipWorld "u1" "admins").d.Get "account_id"⟩ = none
                ∧ (resourceGroupMembershipRead failingPrecheckClient
                    ⟨(membershipWorld "u1" "admins").d.SetId
                        (membershipId ((membershipWorld "u1" "admins").d.Get "account_id")
                          ((membershipWorld "u1" "admins").d.Get "group")),
                     log1 ++ [⟨.groupUserPost
                                ((membershipWorld "u1" "admins").d.Get "group")
                                ⟨(membershipWorld "u1" "admins").d.Get "account_id"⟩,
                                true⟩]⟩).1
                    = .returned (some (.wrap (.remote "401 Unauthorized") "Request failed"))
                ∧ effectiveAddMemberCalls
                    (resourceGroupMembershipCreate failingPrecheckClient
                      (membershipWorld "u1" "admins")).2.log
                    = effectiveAddMemberCalls (membershipWorld "u1" "admins").log
                      ++ [⟨.groupUserPost
                            ((membershipWorld "u1" "admins").d.Get "group")
                            ⟨(membershipWorld "u1" "admins").d.Get "account_id"⟩,
                            true⟩]) :=
  ⟨by decide,
    create_failure_effects failingPrecheckClient (membershipWorld "u1" "admins")
      (.wrap (.remote "401 Unauthorized") "Request failed") (by decide)⟩

/-- C9 fails as stated: on a remote that keeps the membership relation, `"u1"`
is not in `"admins"` before Create; Create returns an error (its trailing Read
fails) after the add-member call has succeeded, and afterwards the remote
reports `"u1"` in `"admins"`. -/
theorem create_fails_after_mutation :
    (isGroupMember unreadableStatefulClient [] "u1" "admins").1 = (false, none)
      ∧ (resourceGroupMembershipCreate unreadableStatefulClient
            (membershipWorld "u1" "admins")).1
          = .returned (some (.wrap (.jira (.remote "503 Service Unavailable"))
              "getting jira group failed"))
      ∧ effectiveAddMemberCalls
          (resourceGroupMembershipCreate unreadableStatefulClient
            (membershipWorld "u1" "admins")).2.log
          = [⟨.groupUserPost "admins" ⟨"u1"⟩, true⟩]
      ∧ (isGroupMember unreadableStatefulClient
          (resourceGroupMembershipCreate unreadableStatefulClient
            (membershipWorld "u1" "admins")).2.log "u1" "admins").1 = (true, none) := by
  decide

/-- C6: for a well-formed id `a ++ ":" ++ g` and any two group listings
returned without error, the resource data Read leaves behind is the same in
both runs: `account_id` is `a` with every `'_'` turned into `':'`, `group` is
`g`, and nothing of the listing enters it. -/
theorem read_attributes_from_id (c1 c2 : Client) (w : World) (a g : String)
    (u1 u2 : UserGroups)
    (hid : w.d.id = a ++ ":" ++ g) (ha : ':' ∉ a.data)
    (h1 : c1.userExpandGroups w.log (Strings.ReplaceAll a "_" ":") = .done u1 none)
    (h2 : c2.userExpandGroups w.log (Strings.ReplaceAll a "_" ":") = .done u2 none) :
    (resourceGroupMembershipRead c1 w).2.d = (resourceGroupMembershipRead c2 w).2.d
      ∧ (resourceGroupMembershipRead c1 w).2.d
          = (w.d.Set "account_id" (Strings.ReplaceAll a "_" ":")).Set "group" g
      ∧ (resourceGroupMembershipRead c1 w).2.d.Get "account_id"
          = Strings.ReplaceAll a "_" ":"
      ∧ (resourceGroupMembershipRead c1 w).2.d.Get "group" = g := by
  have hdec : decodeId w.d.id = some (Strings.ReplaceAll a "_" ":", g) := by
    rw [hid, decodeId_append a g ha]
  rw [read_of_listing c1 w _ _ u1 hdec h1, read_of_listing c2 w _ _ u2 hdec h2]
  refine ⟨rfl, rfl, ?_, ?_⟩
  · simp [ResourceData.Get, ResourceData.GetOkExists, ResourceData.Set, List.lookup]
  · simp [ResourceData.Get, ResourceData.GetOkExists, ResourceData.Set, List.lookup]

/-- Witness for C6: the id `"u_1:admins"` read against two different listings,
one holding the group and one not. -/
theorem read_attributes_from_id_witness :
    (resourceGroupMembershipRead (listingClient ["admins"]) (worldWithId "u_1:admins")).2.d
        = (resourceGroupMembershipRead otherListingClient (worldWithId "u_1:admins")).2.d
      ∧ (resourceGroupMembershipRead (listingClient ["admins"])
            (worldWithId "u_1:admins")).2.d
          = ((worldWithId "u_1:admins").d.Set "account_id"
              (Strings.ReplaceAll "u_1" "_" ":")).Set "group" "admins"
      ∧ (resourceGroupMembershipRead (listingClient ["admins"])
            (worldWithId "u_1:admins")).2.d.Get "account_id"
          = Strings.ReplaceAll "u_1" "_" ":"
      ∧ (resourceGroupMembershipRead (listingClient ["admins"])
            (worldWithId "u_1:admins")).2.d.Get "group" = "admins" :=
  read_attributes_from_id (listingClient ["admins"]) otherListingClient
    (worldWithId "u_1:admins") "u_1" "admins" ⟨⟨[⟨"admins"⟩]⟩⟩
    ⟨⟨[⟨"ops"⟩, ⟨"u1"⟩, ⟨"ADMINS"⟩]⟩⟩ (by decide) (by decide) rfl rfl

/-! ## User resource and user data source -/

theorem resourceUserRead_createUserCalls (c : Client) (w : World) :
    createUserCalls (resourceUserRead c w).2.log = createUserCalls w.log := by
  simp only [resourceUserRead, getUserByKey, ResourceData.Id]
  cases c.userByKey w.log w.d.id with
  | requestError err => rfl
  | done v err =>
    cases err with
    | some e => simp [createUserCalls, List.filter_append]
    | none => simp [createUserCalls, List.filter_append]

theorem lookup_diffEntry_other (key other : String) (configured : Option String)
    (rest : List (String × String)) (h : key ≠ other) :
    List.lookup key (diffEntry other configured ++ rest) = List.lookup key rest := by
  cases configured with
  | none => rfl
  | some v =>
    by_cases hv : v = ""
    · simp [diffEntry, hv]
    · have hb : (key == other) = false := by simpa using h
      simp [diffEntry, hv, List.lookup, hb]

theorem lookup_diffEntry_self (key : String) (configured : Option String) :
    List.lookup key (diffEntry key configured)
      = match configured with
        | none => none
        | some v => if v = "" then none else some v := by
  cases configured with
  | none => rfl
  | some v =>
    by_cases hv : v = ""
    · simp [diffEntry, hv]
    · simp [diffEntry, hv, List.lookup]

theorem lookup_diffEntry_self_append (key : String) (v : String)
    (rest : List (String × String)) (hrest : List.lookup key rest = none) :
    List.lookup key (diffEntry key (some v) ++ rest)
      = if v = "" then none else some v := by
  by_cases hv : v = ""
  · simp [diffEntry, hv, hrest]
  · simp [diffEntry, hv, List.lookup]

theorem userCreateData_name (name email : String) (dn : Option String) :
    (userCreateData name email dn).Get "name" = name := by
  have hrest : List.lookup "name"
      (diffEntry "email" (some email) ++ diffEntry "display_name" dn) = none := by
    rw [lookup_diffEntry_other "name" "email" _ _ (by decide)]
    have h := lookup_diffEntry_other "name" "display_name" dn [] (by decide)
    simpa using h
  have h := lookup_diffEntry_self_append "name" name _ hrest
  simp only [ResourceData.Get, ResourceData.GetOkExists, userCreateData, List.append_assoc, h]
  by_cases hv : name = ""
  · simp [hv]
  · simp [hv]

theorem userCreateData_email (name email : String) (dn : Option String) :
    (userCreateData name email dn).Get "email" = email := by
  have hrest : List.lookup "email" (diffEntry "display_name" dn) = none := by
    have h := lookup_diffEntry_other "email" "display_name" dn [] (by decide)
    simpa using h
  have h := lookup_diffEntry_self_append "email" email _ hrest
  simp only [ResourceData.Get, ResourceData.GetOkExists, userCreateData, List.append_assoc,
    lookup_diffEntry_other "email" "name" _ _ (by decide), h]
  by_cases hv : email = ""
  · simp [hv]
  · simp [hv]

theorem userCreateData_display_name (name email : String) (dn : Option String) :
    (userCreateData name email dn).GetOkExists "display_name"
      = match dn with
        | none => ("", false)
        | some v => if v = "" then ("", false) else (v, true) := by
  simp only [ResourceData.GetOkExists, userCreateData, List.append_assoc,
    lookup_diffEntry_other "display_name" "name" _ _ (by decide),
    lookup_diffEntry_other "display_name" "email" _ _ (by decide),
    lookup_diffEntry_self]
  cases dn with
  | none => rfl
  | some v =>
    by_cases hv : v = ""
    · simp [hv]
    · simp [hv]

/-- The user value resourceUserCreate fills in for a configuration. -/
theorem newUser_userCreateData (name email : String) (dn : Option String) :
    newUser (userCreateData name email dn)
      = { Key := "", Name := name, EmailAddress := email,
          DisplayName := match dn with
            | none => name
            | some v => if v = "" then name else v } := by
  simp only [newUser, userCreateData_name, userCreateData_email,
    userCreateData_display_name]
  cases dn with
  | none => rfl
  | some v =>
    by_cases hv : v = ""
    · simp [hv]
    · simp [hv]

/-- C7 (as the code behaves): for a configuration holding `name`, `email` and an
optional `display_name` (`dn = none` when it is left out), resourceUserCreate
sends exactly one create-user call, and the user it carries has
`DisplayName = name` when `display_name` is left out or configured as the empty
string, and `DisplayName = v` when `display_name` is configured as a non-empty
`v`. -/
theorem user_create_display_name (c : Client) (log : List Event) (name email : String)
    (dn : Option String) :
    createUserCalls (resourceUserCreate c ⟨userCreateData name email dn, log⟩).2.log
      = createUserCalls log
        ++ [.userCreate { Key := "", Name := name, EmailAddress := email,
                          DisplayName := match dn with
                            | none => name
                            | some v => if v = "" then name else v }] := by
  simp only [resourceUserCreate, newUser_userCreateData]
  cases c.userCreate log
      { Key := "", Name := name, EmailAddress := email,
        DisplayName := match dn with
          | none => name
          | some v => if v = "" then name else v } with
  | error err => simp [createUserCalls, List.filter_append]
  | ok created =>
    simp only [resourceUserRead_createUserCalls]
    simp [createUserCalls, List.filter_append]

/-- C7 fails as stated: with `display_name` configured as the empty string the
create-user call carries the name `"jdoe"` as display name, not the empty
string. -/
theorem empty_display_name_replaced_by_name :
    (userCreateData "jdoe" "jdoe@example.com" (some "")).GetOkExists "display_name"
        = ("", false)
      ∧ createUserCalls
          (resourceUserCreate quietClient (userWorld "jdoe" "jdoe@example.com" (some ""))).2.log
          = [.userCreate ⟨"", "jdoe", "jdoe@example.com", "jdoe"⟩]
      ∧ createUserCalls
          (resourceUserCreate quietClient (userWorld "jdoe" "jdoe@example.com" (some ""))).2.log
          ≠ [.userCreate ⟨"", "jdoe", "jdoe@example.com", ""⟩] := by
  decide

/-- Concrete runs of resourceUserCreate: `display_name` left out sends the name,
a non-empty `display_name` is sent as it is. -/
theorem user_create_samples :
    createUserCalls
        (resourceUserCreate quietClient (userWorld "jdoe" "jdoe@example.com" none)).2.log
        = [.userCreate ⟨"", "jdoe", "jdoe@example.com", "jdoe"⟩]
      ∧ createUserCalls
          (resourceUserCreate quietClient
            (userWorld "jdoe" "jdoe@example.com" (some "Jane Doe"))).2.log
          = [.userCreate ⟨"", "jdoe", "jdoe@example.com", "Jane Doe"⟩] := by
  decide

/-- The diff suppression of `display_name` treats an empty new value as the
fallback to the name: it reports no change when the old value is the name. -/
theorem usernameFallbackSuppressFunc_empty (k old : String) (d : ResourceData) :
    usernameFallbackSuppressFunc k old "" d = (old == d.Get "name") := by
  simp [usernameFallbackSuppressFunc]

theorem atlassianIndex_none (users : List jiraCloudUser)
    (h : ∀ x ∈ users, x.AccountType ≠ "atlassian") : atlassianIndex users = -1 := by
  induction users with
  | nil => rfl
  | cons x xs ih =>
    have hx : x.AccountType ≠ "atlassian" := h x (by simp)
    have hxs : atlassianIndex xs = -1 := ih (fun y hy => h y (by simp [hy]))
    simp [atlassianIndex, hx, hxs]

theorem atlassianIndex_first (pre post : List jiraCloudUser) (u : jiraCloudUser)
    (hpre : ∀ x ∈ pre, x.AccountType ≠ "atlassian") (hu : u.AccountType = "atlassian") :
    atlassianIndex (pre ++ u :: post) = pre.length := by
  induction pre with
  | nil => simp [atlassianIndex, hu]
  | cons x xs ih =>
    have hx : x.AccountType ≠ "atlassian" := hpre x (by simp)
    have hxs := ih (fun y hy => hpre y (by simp [hy]))
    have hnn : ¬ ((xs.length : Int) < 0) := by omega
    have hstep : atlassianIndex (x :: (xs ++ u :: post))
        = if (x.AccountType == "atlassian") = true then 0
          else if atlassianIndex (xs ++ u :: post) < 0 then -1
          else atlassianIndex (xs ++ u :: post) + 1 := rfl
    rw [List.cons_append, hstep, hxs]
    simp [hx, hnn]

/-- Every search result either holds no `"atlassian"` entry or splits at its
first one. -/
theorem atlassian_split (users : List jiraCloudUser) :
    (∀ x ∈ users, x.AccountType ≠ "atlassian")
      ∨ ∃ pre u post, users = pre ++ u :: post
          ∧ (∀ x ∈ pre, x.AccountType ≠ "atlassian") ∧ u.AccountType = "atlassian" := by
  induction users with
  | nil => left; simp
  | cons x xs ih =>
    by_cases hx : x.AccountType = "atlassian"
    · right
      exact ⟨[], x, xs, rfl, by simp, hx⟩
    · rcases ih with hnone | ⟨pre, u, post, hs, hpre, hu⟩
      · left
        intro y hy
        rcases List.mem_cons.mp hy with e | e
        · exact e ▸ hx
        · exact hnone y e
      · right
        refine ⟨x :: pre, u, post, by simp [hs], ?_, hu⟩
        intro y hy
        rcases List.mem_cons.mp hy with e | e
        · exact e ▸ hx
        · exact hpre y e

theorem getUserByUsername_none (c : Client) (log : List Event) (email : String)
    (users : List jiraCloudUser)
    (h : c.userSearch log email = .done users none)
    (hnone : ∀ x ∈ users, x.AccountType ≠ "atlassian") :
    getUserByUsername c log email
      = (some (.error (.new "jiraClient: User does not exist")),
         log ++ [⟨.userSearchGet email, true⟩]) := by
  simp [getUserByUsername, h, atlassianIndex_none users hnone]

theorem getElem?_at_split (pre post : List jiraCloudUser) (u : jiraCloudUser) :
    (pre ++ u :: post)[pre.length]? = some u := by
  induction pre with
  | nil => simp
  | cons x xs ih => simpa using ih

theorem getUserByUsername_first (c : Client) (log : List Event) (email : String)
    (pre post : List jiraCloudUser) (u : jiraCloudUser)
    (h : c.userSearch log email = .done (pre ++ u :: post) none)
    (hpre : ∀ x ∈ pre, x.AccountType ≠ "atlassian") (hu : u.AccountType = "atlassian") :
    getUserByUsername c log email
      = (some (.ok u), log ++ [⟨.userSearchGet email, true⟩]) := by
  have hnn : ¬ ((pre.length : Int) < 0) := by omega
  simp only [getUserByUsername, h, atlassianIndex_first pre post u hpre hu, hnn,
    if_false, Int.toNat_ofNat, getElem?_at_split]
  rfl

theorem dataUserRead_of_ok (c : Client) (w : World) (u : jiraCloudUser)
    (log1 : List Event)
    (h : getUserByUsername c w.log (w.d.Get "email") = (some (.ok u), log1)) :
    dataUserRead c w
      = (.returned none,
         ⟨(((w.d.SetId u.AccountID).Set "email" u.EmailAddress).Set "account_id"
              u.AccountID).Set "display_name" u.DisplayName, log1⟩) := by
  simp only [dataUserRead, h]

theorem dataUserRead_of_error (c : Client) (w : World) (err : GoError)
    (log1 : List Event)
    (h : getUserByUsername c w.log (w.d.Get "email") = (some (.error err), log1)) :
    dataUserRead c w
      = (.returned (some (.wrap err "getting jira user failed")),
         { w with log := log1 }) := by
  simp only [dataUserRead, h]

/-- C8: for every list `users` the search returns without error,
getUserByUsername returns the first entry whose account type is `"atlassian"`
and dataUserRead then succeeds with that entry's account id as resource id; no
entry of another account type is ever returned; and the lookup fails with
`jiraClient: User does not exist` (wrapped by dataUserRead as
`getting jira user failed`) exactly when no entry has account type
`"atlassian"`. -/
theorem user_lookup_first_atlassian (c : Client) (w : World)
    (users : List jiraCloudUser)
    (h : c.userSearch w.log (w.d.Get "email") = .done users none) :
    (∀ pre u post, users = pre ++ u :: post →
        (∀ x ∈ pre, x.AccountType ≠ "atlassian") → u.AccountType = "atlassian" →
        (getUserByUsername c w.log (w.d.Get "email")).1 = some (.ok u)
          ∧ (dataUserRead c w).1 = .returned none
          ∧ (dataUserRead c w).2.d.id = u.AccountID)
      ∧ (∀ u, (getUserByUsername c w.log (w.d.Get "email")).1 = some (.ok u) →
          u ∈ users ∧ u.AccountType = "atlassian")
      ∧ ((getUserByUsername c w.log (w.d.Get "email")).1
            = some (.error (.new "jiraClient: User does not exist"))
          ↔ ∀ x ∈ users, x.AccountType ≠ "atlassian")
      ∧ ((dataUserRead c w).1
            = .returned (some (.wrap (.new "jiraClient: User does not exist")
                "getting jira user failed"))
          ↔ ∀ x ∈ users, x.AccountType ≠ "atlassian") := by
  have hfirst : ∀ pre u post, users = pre ++ u :: post →
      (∀ x ∈ pre, x.AccountType ≠ "atlassian") → u.AccountType = "atlassian" →
      getUserByUsername c w.log (w.d.Get "email")
        = (some (.ok u), w.log ++ [⟨.userSearchGet (w.d.Get "email"), true⟩]) := by
    intro pre u post hs hpre hu
    rw [hs] at h
    exact getUserByUsername_first c w.log _ pre post u h hpre hu
  refine ⟨?_, ?_, ?_, ?_⟩
  · intro pre u post hs hpre hu
    have hg := hfirst pre u post hs hpre hu
    rw [dataUserRead_of_ok c w u _ hg, hg]
    exact ⟨rfl, rfl, rfl⟩
  · intro u hu
    rcases atlassian_split users with hnone | ⟨pre, v, post, hs, hpre, hv⟩
    · rw [getUserByUsername_none c w.log _ users h hnone] at hu
      simp at hu
    · rw [hfirst pre v post hs hpre hv] at hu
      have huv : v = u := by
        injection hu with h1
        injection h1
      subst huv
      exact ⟨by simp [hs], hv⟩
  · constructor
    · intro herr
      rcases atlassian_split users with hnone | ⟨pre, v, post, hs, hpre, hv⟩
      · exact hnone
      · rw [hfirst pre v post hs hpre hv] at herr
        simp at herr
    · intro hnone
      rw [getUserByUsername_none c w.log _ users h hnone]
  · constructor
    · intro herr
      rcases atlassian_split users with hnone | ⟨pre, v, post, hs, hpre, hv⟩
      · exact hnone
      · rw [dataUserRead_of_ok c w v _ (hfirst pre v post hs hpre hv)] at herr
        simp at herr
    · intro hnone
      rw [dataUserRead_of_error c w _ _ (getUserByUsername_none c w.log _ users h hnone)]

/-- Witness for C8: of the results `[other, atlassian with account id "A1"]`
for one e-mail address the second entry is returned and the resource id
becomes `"A1"`. -/
theorem user_lookup_first_atlassian_witness :
    (getUserByUsername
        (searchClient [searchEntry "other" "e@example.com" "B7",
                       searchEntry "atlassian" "e@example.com" "A1"])
        (lookupWorld "e@example.com").log
        ((lookupWorld "e@example.com").d.Get "email")).1
        = some (.ok (searchEntry "atlassian" "e@example.com" "A1"))
      ∧ (dataUserRead
          (searchClient [searchEntry "other" "e@example.com" "B7",
                         searchEntry "atlassian" "e@example.com" "A1"])
          (lookupWorld "e@example.com")).1 = .returned none
      ∧ (dataUserRead
          (searchClient [searchEntry "other" "e@example.com" "B7",
                         searchEntry "atlassian" "e@example.com" "A1"])
          (lookupWorld "e@example.com")).2.d.id = "A1" :=
  (user_lookup_first_atlassian
    (searchClient [searchEntry "other" "e@example.com" "B7",
                   searchEntry "atlassian" "e@example.com" "A1"])
    (lookupWorld "e@example.com")
    [searchEntry "other" "e@example.com" "B7",
     searchEntry "atlassian" "e@example.com" "A1"] rfl).1
    [searchEntry "other" "e@example.com" "B7"]
    (searchEntry "atlassian" "e@example.com" "A1") [] rfl (by decide) rfl

/-! ## Concrete runs of the string functions -/

/-- The model of `strings.ReplaceAll` on sample inputs. -/
theorem ReplaceAll_samples :
    Strings.ReplaceAll "a:b::c" ":" "_" = "a_b__c"
      ∧ Strings.ReplaceAll "abc" "" "X" = "XaXbXcX"
      ∧ Strings.ReplaceAll "aaaa" "aa" "b" = "bb"
      ∧ Strings.ReplaceAll "" ":" "_" = "" := by
  decide

/-- The model of `strings.SplitN` on sample inputs. -/
theorem SplitN_samples :
    Strings.SplitN "a:b:c" ":" 2 = ["a", "b:c"]
      ∧ Strings.SplitN "abc" ":" 2 = ["abc"]
      ∧ Strings.SplitN "" ":" 2 = [""]
      ∧ Strings.SplitN ":" ":" 2 = ["", ""]
      ∧ Strings.SplitN "a:b:c" ":" (-1) = ["a", "b", "c"]
      ∧ Strings.SplitN "a:b:c" ":" 0 = []
      ∧ Strings.SplitN "abc" "" 2 = ["a", "bc"] := by
  decide

/-- The end-to-end scenario: Create for `"u1"` / `"admins"` on a remote where
`"u1"` is not yet a member issues one add-member call and sets the id
`"u1:admins"`; Read of that id succeeds where the remote lists `"admins"` and
fails with `Cannot find group admins` where it no longer does. -/
theorem end_to_end_scenario :
    addMemberCalls
        (resourceGroupMembershipCreate quietClient (membershipWorld "u1" "admins")).2.log
        = [⟨.groupUserPost "admins" ⟨"u1"⟩, true⟩]
      ∧ (resourceGroupMembershipCreate quietClient (membershipWorld "u1" "admins")).2.d.id
          = "u1:admins"
      ∧ resourceGroupMembershipRead (listingClient ["admins"]) (worldWithId "u1:admins")
          = (.returned none,
             ⟨⟨"u1:admins", [("group", "admins"), ("account_id", "u1")]⟩,
              [⟨.userExpandGroupsGet "u1", true⟩]⟩)
      ∧ (resourceGroupMembershipRead quietClient (worldWithId "u1:admins")).1
          = .returned (some (.new "Cannot find group admins")) := by
  decide

end Jira
